import Mathlib

/-!
Verification of the MaterVis crystallographic geometry and bonding engine.

The definitions below are a shallow embedding of the TypeScript source:

* `src/utils/lattice.ts` : `wrapFractional`, `minimumImage`, `periodicDistance`
* `crystal.ts`           : `Lattice`, `Site`, `CrystalStructure`,
                           `latticeParamsToMatrix`, `fracToCartesian`
* `src/utils/bonds.ts`   : `COVALENT_RADII`, `getCovalentRadius`, `Bond`,
                           `calculateBonds`

JavaScript numbers are embedded as real numbers.  JavaScript's
`Math.floor` is `Int.floor`; JavaScript's `Math.round` rounds half-way
cases toward positive infinity, i.e. `Math.round x = ⌊x + 1/2⌋`, which is
exactly Mathlib's `round`.  A JavaScript object used as a string-keyed
dictionary is embedded as an association list, and the truthiness test
`v || w` on numbers (`0` and `NaN` are falsy; `NaN` does not arise from
literals) is embedded as a test against `0`.
-/

namespace MaterVis

/-- A 3-component vector of JavaScript numbers (`number[]` of length 3). -/
abbrev Vec3 := Fin 3 → ℝ

/-- A 3×3 matrix of JavaScript numbers (`number[][]`), rows = lattice vectors. -/
abbrev Mat3 := Fin 3 → Fin 3 → ℝ

noncomputable section

/-- `wrapFractional` from `src/utils/lattice.ts`:
`frac.map(f => f - Math.floor(f))`. -/
def wrapFractional (frac : Vec3) : Vec3 :=
  fun i => frac i - ⌊frac i⌋

/-- `minimumImage` from `src/utils/lattice.ts`:
`frac.map(f => f - Math.round(f))`, with JavaScript's round-half-up. -/
def minimumImage (frac : Vec3) : Vec3 :=
  fun i => frac i - round (frac i)

/-- `periodicDistance` from `src/utils/lattice.ts`: minimum-image difference
of the fractional coordinates, converted to Cartesian by the row-vector ×
matrix convention, then the Euclidean norm. -/
def periodicDistance (frac1 frac2 : Vec3) (latticeMatrix : Mat3) : ℝ :=
  let df : Vec3 := fun i => frac2 i - frac1 i
  let dfWrapped := minimumImage df
  let dr : Vec3 := fun k =>
    dfWrapped 0 * latticeMatrix 0 k + dfWrapped 1 * latticeMatrix 1 k +
      dfWrapped 2 * latticeMatrix 2 k
  Real.sqrt (dr 0 * dr 0 + dr 1 * dr 1 + dr 2 * dr 2)

/-- `latticeParamsToMatrix` from `crystal.ts`.  Angles are in degrees and
converted to radians; rows are the three lattice vectors. -/
def latticeParamsToMatrix (a b c alpha beta gamma : ℝ) : Mat3 :=
  let alphaRad := alpha * Real.pi / 180
  let betaRad := beta * Real.pi / 180
  let gammaRad := gamma * Real.pi / 180
  let bx := b * Real.cos gammaRad
  let b_y := b * Real.sin gammaRad
  let cx := c * Real.cos betaRad
  let cy := c * (Real.cos alphaRad - Real.cos betaRad * Real.cos gammaRad) /
    Real.sin gammaRad
  let cz := Real.sqrt (c * c - cx * cx - cy * cy)
  ![![a, 0, 0], ![bx, b_y, 0], ![cx, cy, cz]]

/-- `fracToCartesian` from `crystal.ts`: row vector × matrix. -/
def fracToCartesian (frac : Vec3) (latticeMatrix : Mat3) : Vec3 :=
  fun k => frac 0 * latticeMatrix 0 k + frac 1 * latticeMatrix 1 k +
    frac 2 * latticeMatrix 2 k

/-- The `Lattice` interface from `crystal.ts`. -/
structure Lattice where
  matrix : Mat3
  a : ℝ
  b : ℝ
  c : ℝ
  alpha : ℝ
  beta : ℝ
  gamma : ℝ

/-- The `Site` interface from `crystal.ts`. -/
structure Site where
  element : String
  frac : Vec3
  occupancy : ℝ
  label : Option String := none
  disorder_group : Option String := none
  oxidation_state : Option ℝ := none
  cartesian : Option Vec3 := none

/-- The `CrystalStructure` interface from `crystal.ts` (the optional
presentation-only fields `site_properties` and `style` are omitted; they are
never read by the geometry or bonding code). -/
structure CrystalStructure where
  lattice : Lattice
  pbc : Fin 3 → Bool
  sites : List Site

/-- The `Bond` interface from `src/utils/bonds.ts`. -/
structure Bond where
  atom1 : ℕ
  atom2 : ℕ
  distance : ℝ
  cutoff : ℝ

/-- The `COVALENT_RADII` table from `src/utils/bonds.ts` (Pyykkö & Atsumi
covalent radii in Å), as an association list standing for the object literal. -/
def COVALENT_RADII : List (String × ℝ) :=
  [("H", 0.32), ("He", 0.46), ("Li", 1.33), ("Be", 1.02), ("B", 0.85),
   ("C", 0.75), ("N", 0.71), ("O", 0.66), ("F", 0.57), ("Ne", 0.58),
   ("Na", 1.55), ("Mg", 1.39), ("Al", 1.26), ("Si", 1.16), ("P", 1.11),
   ("S", 1.03), ("Cl", 0.99), ("Ar", 1.07), ("K", 1.96), ("Ca", 1.71),
   ("Sc", 1.48), ("Ti", 1.36), ("V", 1.34), ("Cr", 1.22), ("Mn", 1.19),
   ("Fe", 1.16), ("Co", 1.11), ("Ni", 1.10), ("Cu", 1.12), ("Zn", 1.18),
   ("Ga", 1.24), ("Ge", 1.21), ("As", 1.21), ("Se", 1.16), ("Br", 1.14),
   ("Kr", 1.17)]

/-- JavaScript `v || d` for a possibly-absent number `v`: the default `d` is
taken when the lookup is absent or its value is falsy (i.e. `0`). -/
def jsor (v : Option ℝ) (d : ℝ) : ℝ :=
  match v with
  | some x => if x = 0 then d else x
  | none => d

/-- A possibly-absent number filtered by JavaScript truthiness: `some x`
survives only when `x` is truthy (nonzero). -/
def truthy (v : Option ℝ) : Option ℝ :=
  match v with
  | some x => if x = 0 then none else some x
  | none => none

/-- `getCovalentRadius` from `src/utils/bonds.ts`:
`COVALENT_RADII[element] || 1.0`. -/
def getCovalentRadius (element : String) : ℝ :=
  jsor (COVALENT_RADII.lookup element) 1.0

/-- The template-literal pair key `` `${e1}-${e2}` `` used by `calculateBonds`. -/
def pairKey (e1 e2 : String) : String := e1 ++ "-" ++ e2

/-- The combined truthy override lookup performed by `calculateBonds`:
`pairOverrides[pairKey1] || pairOverrides[pairKey2]`, as an optional value
(`none` exactly when the JavaScript condition is falsy). -/
def overrideVal (pairOverrides : List (String × ℝ)) (e1 e2 : String) : Option ℝ :=
  (truthy (pairOverrides.lookup (pairKey e1 e2))).orElse
    (fun _ => truthy (pairOverrides.lookup (pairKey e2 e1)))

/-- The per-pair cutoff determined inside the loop of `calculateBonds`:
a truthy pair override is used as-is; otherwise the covalent-radius sum is
scaled and clamped into `[minCut, maxCut]` via
`Math.max(minCut, Math.min(maxCut, scaleFactor * (r1 + r2)))`. -/
def pairCutoff (e1 e2 : String) (scaleFactor minCut maxCut : ℝ)
    (pairOverrides : List (String × ℝ)) : ℝ :=
  match overrideVal pairOverrides e1 e2 with
  | some v => v
  | none =>
      max minCut (min maxCut (scaleFactor * (getCovalentRadius e1 + getCovalentRadius e2)))

/-- Placeholder site used to embed the always-in-bounds array accesses
`crystal.sites[i]` as `List.getD`. -/
def defaultSite : Site :=
  { element := "", frac := fun _ => 0, occupancy := 1 }

/-- `calculateBonds` from `src/utils/bonds.ts`: for every pair `i < j` of
site indices (outer loop `i` ascending, inner loop `j` from `i + 1`),
determine the cutoff, compute the periodic distance, and emit a bond when
`distance ≤ cutoff`. -/
def calculateBonds (crystal : CrystalStructure) (scaleFactor minCut maxCut : ℝ)
    (pairOverrides : List (String × ℝ)) : List Bond :=
  let latticeMatrix := crystal.lattice.matrix
  let n := crystal.sites.length
  (List.range n).flatMap (fun i =>
    let site1 := crystal.sites.getD i defaultSite
    (List.range' (i + 1) (n - (i + 1))).filterMap (fun j =>
      let site2 := crystal.sites.getD j defaultSite
      let cutoff := pairCutoff site1.element site2.element scaleFactor minCut
        maxCut pairOverrides
      let distance := periodicDistance site1.frac site2.frac latticeMatrix
      if distance ≤ cutoff then
        some { atom1 := i, atom2 := j, distance := distance, cutoff := cutoff }
      else none))

end

/-! ### Basic facts about the periodic wrapping functions -/

theorem wrapFractional_eq_fract (v : Vec3) (i : Fin 3) :
    wrapFractional v i = Int.fract (v i) := rfl

theorem minimumImage_eq_fract (v : Vec3) (i : Fin 3) :
    minimumImage v i = Int.fract (v i + 1 / 2) - 1 / 2 := by
  simp only [minimumImage, round_eq, Int.fract]
  ring

theorem minimumImage_add_int (d : Vec3) (k : Fin 3 → ℤ) :
    minimumImage (fun i => d i + (k i : ℝ)) = minimumImage d := by
  funext i
  simp only [minimumImage, round_add_int]
  push_cast
  ring

/-- Claim C7: every component of `minimumImage` lies in `[-1/2, 1/2)` and
every component of `wrapFractional` lies in `[0, 1)`. -/
theorem minimumImage_wrapFractional_range (v : Vec3) (i : Fin 3) :
    (-(1 / 2) ≤ minimumImage v i ∧ minimumImage v i < 1 / 2) ∧
      (0 ≤ wrapFractional v i ∧ wrapFractional v i < 1) := by
  have h1 := Int.fract_nonneg (v i + 1 / 2)
  have h2 := Int.fract_lt_one (v i + 1 / 2)
  have h3 := Int.fract_nonneg (v i)
  have h4 := Int.fract_lt_one (v i)
  rw [minimumImage_eq_fract, wrapFractional_eq_fract]
  constructor <;> constructor <;> linarith

/-- Claim C4: shifting either argument of `periodicDistance` by an integer
vector leaves the distance unchanged. -/
theorem periodicDistance_int_shift (frac1 frac2 : Vec3) (L : Mat3) (k : Fin 3 → ℤ) :
    periodicDistance frac1 (fun i => frac2 i + (k i : ℝ)) L =
      periodicDistance frac1 frac2 L := by
  simp only [periodicDistance]
  have h : (fun i => (fun i => frac2 i + (k i : ℝ)) i - frac1 i) =
      (fun i => (frac2 i - frac1 i) + (k i : ℝ)) := by
    funext i; ring
  rw [h, minimumImage_add_int]

/-- Evaluation rule for `round` at explicit numerals. -/
theorem round_eval (x : ℝ) (n : ℤ) (h1 : (n : ℝ) ≤ x + 1 / 2)
    (h2 : x + 1 / 2 < (n : ℝ) + 1) : round x = n := by
  rw [round_eq]
  exact Int.floor_eq_iff.mpr ⟨by exact_mod_cast h1, by exact_mod_cast h2⟩

theorem fract_add_half_ne_zero {d : ℝ} (h : Int.fract d ≠ 1 / 2) :
    Int.fract (d + 1 / 2) ≠ 0 := by
  intro h0
  apply h
  rw [Int.fract_eq_iff] at h0 ⊢
  obtain ⟨-, -, z, hz⟩ := h0
  exact ⟨by norm_num, by norm_num, z - 1, by push_cast; linarith⟩

/-- Negating the argument negates `x - round x`, as long as the fractional
part of the argument is not exactly `1/2` (at half-integers JavaScript's
round-half-up convention is not odd). -/
theorem fract_half_neg {d : ℝ} (h : Int.fract d ≠ 1 / 2) :
    Int.fract (-d + 1 / 2) - 1 / 2 = -(Int.fract (d + 1 / 2) - 1 / 2) := by
  have h1 : Int.fract (d - 1 / 2) ≠ 0 := by
    have e : d - 1 / 2 = d + 1 / 2 - (1 : ℤ) := by push_cast; ring
    rw [e, Int.fract_sub_int]
    exact fract_add_half_ne_zero h
  have e2 : -d + 1 / 2 = -(d - 1 / 2) := by ring
  have e3 : d + 1 / 2 = d - 1 / 2 + (1 : ℤ) := by push_cast; ring
  rw [e2, Int.fract_neg h1, e3, Int.fract_add_int]
  ring

/-- First counterexample point: the origin. -/
noncomputable def vecA : Vec3 := ![0, 0, 0]

/-- Second counterexample point: its first component differs from `vecA` by
exactly half a lattice vector. -/
noncomputable def vecB : Vec3 := ![1 / 2, 3 / 10, 0]

/-- A skewed (non-orthogonal) lattice matrix. -/
noncomputable def skewL : Mat3 := ![![1, 0, 0], ![1, 1, 0], ![0, 0, 1]]

/-- Claim C3, counterexample: `periodicDistance` is not symmetric.  At a
fractional separation with a component of exactly `1/2`, JavaScript's
`Math.round` sends both `1/2` and `-1/2` to the representative `-1/2`, and on
a skewed lattice the two mixed-sign Cartesian vectors have different norms
(`√(13/100)` versus `√(73/100)`). -/
theorem periodicDistance_not_symm :
    periodicDistance vecA vecB skewL ≠ periodicDistance vecB vecA skewL := by
  have h1 : periodicDistance vecA vecB skewL = Real.sqrt (13 / 100) := by
    simp only [periodicDistance, minimumImage, vecA, vecB, skewL,
      Matrix.cons_val_zero, Matrix.cons_val_one, Matrix.head_cons,
      Matrix.cons_val_two, Matrix.tail_cons]
    rw [round_eval (1 / 2 - 0) 1 (by norm_num) (by norm_num),
      round_eval (3 / 10 - 0) 0 (by norm_num) (by norm_num),
      round_eval (0 - 0) 0 (by norm_num) (by norm_num)]
    norm_num
  have h2 : periodicDistance vecB vecA skewL = Real.sqrt (73 / 100) := by
    simp only [periodicDistance, minimumImage, vecA, vecB, skewL,
      Matrix.cons_val_zero, Matrix.cons_val_one, Matrix.head_cons,
      Matrix.cons_val_two, Matrix.tail_cons]
    rw [round_eval (0 - 1 / 2) 0 (by norm_num) (by norm_num),
      round_eval (0 - 3 / 10) 0 (by norm_num) (by norm_num),
      round_eval (0 - 0) 0 (by norm_num) (by norm_num)]
    norm_num
  rw [h1, h2]
  exact ne_of_lt (Real.sqrt_lt_sqrt (by norm_num) (by norm_num))

/-- Claim C3, amended: `periodicDistance` is symmetric whenever no component
of the fractional separation has fractional part exactly `1/2`. -/
theorem periodicDistance_symm_of_fract_ne_half (x y : Vec3) (L : Mat3)
    (h : ∀ i, Int.fract (y i - x i) ≠ 1 / 2) :
    periodicDistance x y L = periodicDistance y x L := by
  simp only [periodicDistance]
  have key : ∀ i, minimumImage (fun j => x j - y j) i =
      -(minimumImage (fun j => y j - x j) i) := by
    intro i
    rw [minimumImage_eq_fract, minimumImage_eq_fract]
    have e : x i - y i = -(y i - x i) := by ring
    rw [e]
    exact fract_half_neg (h i)
  rw [key 0, key 1, key 2]
  congr 1
  ring

/-- Witness for the amended claim C3 at a concrete separation `(1/4, 0, 0)`
on the identity lattice. -/
theorem periodicDistance_symm_witness :
    periodicDistance ![0, 0, 0] ![1 / 4, 0, 0] ![![1, 0, 0], ![0, 1, 0], ![0, 0, 1]] =
      periodicDistance ![1 / 4, 0, 0] ![0, 0, 0] ![![1, 0, 0], ![0, 1, 0], ![0, 0, 1]] :=
  periodicDistance_symm_of_fract_ne_half _ _ _ (by
    have hq : Int.fract ((1 : ℝ) / 4) = 1 / 4 :=
      Int.fract_eq_self.mpr ⟨by norm_num, by norm_num⟩
    intro i
    fin_cases i <;>
      simp only [Matrix.cons_val_zero, Matrix.cons_val_one, Matrix.head_cons,
        Matrix.cons_val_two, Matrix.tail_cons, sub_zero] <;>
      norm_num [hq, Int.fract_zero])

/-! ### The cubic specialisation of the lattice-parameter construction -/

/-- Claim C8, counterexample: with a negative third length, the `(2,2)` entry
is `√(c·c) = |c| = 1`, not `c = -1`, so the matrix is not `diag(a, b, c)`. -/
theorem latticeParamsToMatrix_cubic_cex :
    latticeParamsToMatrix 1 1 (-1) 90 90 90 ≠
      ![![1, 0, 0], ![0, 1, 0], ![0, 0, -1]] := by
  intro h
  have h22 := congrFun (congrFun h 2) 2
  have hdeg : (90 : ℝ) * Real.pi / 180 = Real.pi / 2 := by ring
  simp only [latticeParamsToMatrix, hdeg, Real.cos_pi_div_two, Real.sin_pi_div_two,
    mul_zero, zero_mul, mul_one, sub_zero, zero_sub, div_one, mul_neg, neg_zero,
    Matrix.cons_val_two, Matrix.tail_cons, Matrix.cons_val_zero, Matrix.cons_val_one,
    Matrix.head_cons] at h22
  rw [neg_neg, Real.sqrt_one] at h22
  norm_num at h22

/-- Claim C8, amended: for every `a`, `b` and every nonnegative `c`,
`latticeParamsToMatrix a b c 90 90 90` is the diagonal matrix `diag(a, b, c)`. -/
theorem latticeParamsToMatrix_cubic (a b c : ℝ) (hc : 0 ≤ c) :
    latticeParamsToMatrix a b c 90 90 90 = ![![a, 0, 0], ![0, b, 0], ![0, 0, c]] := by
  have hdeg : (90 : ℝ) * Real.pi / 180 = Real.pi / 2 := by ring
  simp only [latticeParamsToMatrix, hdeg, Real.cos_pi_div_two, Real.sin_pi_div_two,
    mul_zero, zero_mul, mul_one, sub_zero, zero_sub, div_one, mul_neg, neg_zero]
  rw [Real.sqrt_mul_self hc]

/-- Witness for the amended claim C8: the cubic `a = b = c = 5` lattice of the
repository's own test suite. -/
theorem latticeParamsToMatrix_cubic_witness :
    latticeParamsToMatrix 5 5 5 90 90 90 = ![![5, 0, 0], ![0, 5, 0], ![0, 0, 5]] :=
  latticeParamsToMatrix_cubic 5 5 5 (by norm_num)

/-! ### The covalent-radius table and the per-pair cutoff -/

theorem lookup_pos (l : List (String × ℝ)) (hl : ∀ p ∈ l, 0 < p.2) :
    ∀ (a : String) (x : ℝ), l.lookup a = some x → 0 < x := by
  induction l with
  | nil => intro a x hx; simp at hx
  | cons p rest ih =>
    intro a x hx
    rw [List.lookup_cons] at hx
    rcases hab : a == p.1 with h | h
    · rw [hab] at hx
      exact ih (fun q hq => hl q (List.mem_cons_of_mem p hq)) a x hx
    · rw [hab] at hx
      obtain rfl : p.2 = x := by simpa using hx
      exact hl p (List.mem_cons_self p rest)

theorem covalent_radii_pos : ∀ p ∈ COVALENT_RADII, (0 : ℝ) < p.2 := by
  intro p hp
  fin_cases hp <;> norm_num

/-- Every element, known or unknown, resolves to a positive covalent radius
(the table values are positive and the fallback is `1.0`). -/
theorem getCovalentRadius_pos (e : String) : 0 < getCovalentRadius e := by
  rw [getCovalentRadius]
  rcases h : COVALENT_RADII.lookup e with - | x
  · simp only [jsor]; norm_num
  · have hx := lookup_pos COVALENT_RADII covalent_radii_pos e x h
    simp only [jsor]
    by_cases hx0 : x = 0
    · rw [if_pos hx0]; norm_num
    · rw [if_neg hx0]; exact hx

/-- Claim C2, counterexample: an override entry whose value is `0` is present
under the key `"H-O"`, yet the cutoff for the pair (H, O) is the clamped
radius-sum `0.98`, not `0` — JavaScript's `||` skips falsy override values. -/
theorem pairCutoff_zero_override_cex :
    ([("H-O", (0 : ℝ))].lookup (pairKey "H" "O") = some 0) ∧
      pairCutoff "H" "O" 1 0.7 3.2 [("H-O", 0)] ≠ 0 := by
  constructor
  · rfl
  · have hov : overrideVal [("H-O", (0 : ℝ))] "H" "O" = none := by
      simp [overrideVal, truthy, pairKey, List.lookup]
    have hr : getCovalentRadius "H" = 0.32 := by
      have hl : COVALENT_RADII.lookup "H" = some 0.32 := rfl
      rw [getCovalentRadius, hl]
      norm_num [jsor]
    have hr2 : getCovalentRadius "O" = 0.66 := by
      have hl : COVALENT_RADII.lookup "O" = some 0.66 := rfl
      rw [getCovalentRadius, hl]
      norm_num [jsor]
    simp only [pairCutoff, hov, hr, hr2]
    norm_num [min_def, max_def]

/-- Claim C2, amended: an override entry whose value is nonzero under the key
`e1-e2` — or, when that lookup is falsy, under `e2-e1` — is used directly as
the pair's cutoff, with no radius-sum computation and no `[minCut, maxCut]`
clamp (the conclusion holds for arbitrary `scaleFactor`, `minCut`, `maxCut`). -/
theorem pairCutoff_uses_truthy_override (e1 e2 : String) (s mn mx : ℝ)
    (po : List (String × ℝ)) (v : ℝ) (hv : v ≠ 0)
    (h : po.lookup (pairKey e1 e2) = some v ∨
      (truthy (po.lookup (pairKey e1 e2)) = none ∧
        po.lookup (pairKey e2 e1) = some v)) :
    pairCutoff e1 e2 s mn mx po = v := by
  have hov : overrideVal po e1 e2 = some v := by
    rcases h with h | ⟨h1, h2⟩
    · rw [overrideVal, h]
      simp [truthy, hv, Option.orElse]
    · rw [overrideVal, h1, h2]
      simp [truthy, hv, Option.orElse]
  simp only [pairCutoff, hov]

/-- Witness for the amended claim C2: the override `5` for the pair (H, O)
is used as the cutoff even though it exceeds `maxCut = 3.2`. -/
theorem pairCutoff_uses_truthy_override_witness :
    pairCutoff "H" "O" 1 0.7 3.2 [("H-O", 5)] = 5 :=
  pairCutoff_uses_truthy_override "H" "O" 1 0.7 3.2 [("H-O", 5)] 5 (by norm_num)
    (Or.inl rfl)

/-- Claim C10: when `maxCut < minCut`, every pair without an applicable
(truthy) override is assigned the cutoff `minCut` exactly, independently of
the scale factor and of the covalent radii. -/
theorem pairCutoff_eq_minCut_of_maxCut_lt (e1 e2 : String) (s mn mx : ℝ)
    (po : List (String × ℝ)) (hov : overrideVal po e1 e2 = none) (h : mx < mn) :
    pairCutoff e1 e2 s mn mx po = mn := by
  simp only [pairCutoff, hov]
  exact max_eq_left ((min_le_left _ _).trans h.le)

/-- Witness for claim C10 at `minCut = 3`, `maxCut = 2` and the pair (H, H). -/
theorem pairCutoff_eq_minCut_witness :
    pairCutoff "H" "H" 1 3 2 [] = 3 :=
  pairCutoff_eq_minCut_of_maxCut_lt "H" "H" 1 3 2 [] rfl (by norm_num)

/-- Claim C6: `calculateBonds` never reads the periodic-boundary flags, so
two structures differing only in `pbc` yield identical bond lists. -/
theorem calculateBonds_pbc_irrelevant (lat : Lattice) (pbc1 pbc2 : Fin 3 → Bool)
    (sites : List Site) (s mn mx : ℝ) (po : List (String × ℝ)) :
    calculateBonds ⟨lat, pbc1, sites⟩ s mn mx po =
      calculateBonds ⟨lat, pbc2, sites⟩ s mn mx po := rfl

/-! ### Degenerate bonding configurations -/

theorem periodicDistance_self (v : Vec3) (L : Mat3) : periodicDistance v v L = 0 := by
  simp [periodicDistance, minimumImage]

/-- A unit cubic lattice. -/
noncomputable def cubicLattice : Lattice :=
  { matrix := ![![1, 0, 0], ![0, 1, 0], ![0, 0, 1]],
    a := 1, b := 1, c := 1, alpha := 90, beta := 90, gamma := 90 }

/-- A hydrogen site at the origin. -/
noncomputable def hSite : Site := { element := "H", frac := ![0, 0, 0], occupancy := 1 }

/-- Two coincident hydrogen sites in the unit cubic cell. -/
noncomputable def coincidentCrystal : CrystalStructure :=
  { lattice := cubicLattice, pbc := fun _ => true, sites := [hSite, hSite] }

/-- Claim C1, counterexample: with `scaleFactor = 0` and the default cutoffs
`minCut = 0.7`, `maxCut = 3.2`, the clamp `max(minCut, min(maxCut, 0))`
produces the cutoff `0.7`, and the two coincident sites (distance `0`) are
bonded — the bond list is not empty. -/
theorem calculateBonds_zero_scale_cex :
    calculateBonds coincidentCrystal 0 0.7 3.2 [] ≠ [] := by
  have hcut : pairCutoff "H" "H" 0 0.7 3.2 [] = 0.7 := by
    have hov : overrideVal [] "H" "H" = none := rfl
    simp only [pairCutoff, hov, zero_mul]
    norm_num [min_def, max_def]
  have hdist : periodicDistance ![0, 0, 0] ![0, 0, 0] cubicLattice.matrix = 0 :=
    periodicDistance_self _ _
  have e1 : List.range 2 = [0, 1] := rfl
  have e2 : List.range' (0 + 1) (2 - (0 + 1)) = [1] := rfl
  have e3 : List.range' (1 + 1) (2 - (1 + 1)) = [] := rfl
  have hb : calculateBonds coincidentCrystal 0 0.7 3.2 [] =
      [{ atom1 := 0, atom2 := 1, distance := 0, cutoff := 0.7 }] := by
    simp only [calculateBonds, coincidentCrystal, List.length_cons, List.length_nil,
      e1, e2, e3, List.flatMap_cons, List.flatMap_nil, List.filterMap_cons,
      List.filterMap_nil, List.getD_cons_zero, List.getD_cons_succ]
    simp only [hSite, hcut, hdist]
    rw [if_pos (by norm_num : (0 : ℝ) ≤ 0.7)]
    simp
  rw [hb]
  simp

/-- Claim C1, amended: with a strictly negative `scaleFactor`, a strictly
negative `minCut` and no pair overrides, every cutoff is negative while every
distance is nonnegative, so `calculateBonds` returns the empty list. -/
theorem calculateBonds_empty_of_neg (crystal : CrystalStructure) (s mn mx : ℝ)
    (hs : s < 0) (hmn : mn < 0) :
    calculateBonds crystal s mn mx [] = [] := by
  simp only [calculateBonds]
  rw [List.flatMap_eq_nil_iff]
  intro i hi
  rw [List.filterMap_eq_nil_iff]
  intro j hj
  have hov : overrideVal [] (crystal.sites.getD i defaultSite).element
      ((crystal.sites.getD j defaultSite).element) = none := rfl
  have hcut : pairCutoff (crystal.sites.getD i defaultSite).element
      ((crystal.sites.getD j defaultSite).element) s mn mx [] < 0 := by
    simp only [pairCutoff, hov]
    have hr : 0 < getCovalentRadius (crystal.sites.getD i defaultSite).element +
        getCovalentRadius ((crystal.sites.getD j defaultSite).element) :=
      add_pos (getCovalentRadius_pos _) (getCovalentRadius_pos _)
    have hneg : s * (getCovalentRadius (crystal.sites.getD i defaultSite).element +
        getCovalentRadius ((crystal.sites.getD j defaultSite).element)) < 0 :=
      mul_neg_of_neg_of_pos hs hr
    exact max_lt hmn (lt_of_le_of_lt (min_le_right _ _) hneg)
  rw [if_neg]
  exact not_le.mpr (lt_of_lt_of_le hcut (Real.sqrt_nonneg _))

/-- Witness for the amended claim C1: the coincident-site crystal yields no
bonds once both `scaleFactor` and `minCut` are negative. -/
theorem calculateBonds_empty_of_neg_witness :
    calculateBonds coincidentCrystal (-1) (-1) 3.2 [] = [] :=
  calculateBonds_empty_of_neg coincidentCrystal (-1) (-1) 3.2 (by norm_num) (by norm_num)

/-! ### Monotonicity of bonding in the scale factor -/

theorem pairCutoff_mono (e1 e2 : String) (s1 s2 mn mx : ℝ)
    (po : List (String × ℝ)) (h : s1 ≤ s2) :
    pairCutoff e1 e2 s1 mn mx po ≤ pairCutoff e1 e2 s2 mn mx po := by
  rcases hov : overrideVal po e1 e2 with - | v
  · simp only [pairCutoff, hov]
    have hr : (0 : ℝ) ≤ getCovalentRadius e1 + getCovalentRadius e2 :=
      (add_pos (getCovalentRadius_pos e1) (getCovalentRadius_pos e2)).le
    exact max_le_max le_rfl (min_le_min le_rfl (mul_le_mul_of_nonneg_right h hr))
  · simp only [pairCutoff, hov]
    exact le_rfl

theorem length_filterMap_if_le {α β γ : Type} (l : List α) (p q : α → Prop)
    [DecidablePred p] [DecidablePred q] (f : α → β) (g : α → γ)
    (h : ∀ a ∈ l, p a → q a) :
    (l.filterMap fun a => if p a then some (f a) else none).length ≤
      (l.filterMap fun a => if q a then some (g a) else none).length := by
  induction l with
  | nil => simp
  | cons a t ih =>
    have ht := ih fun x hx => h x (List.mem_cons_of_mem a hx)
    rw [List.filterMap_cons, List.filterMap_cons]
    by_cases hp : p a
    · rw [if_pos hp, if_pos (h a (List.mem_cons_self a t) hp)]
      exact Nat.succ_le_succ ht
    · rw [if_neg hp]
      by_cases hq : q a
      · rw [if_pos hq]
        exact ht.trans (Nat.le_succ _)
      · rw [if_neg hq]
        exact ht

theorem length_flatMap_le {α β γ : Type} (l : List α) (f : α → List β)
    (g : α → List γ) (h : ∀ a ∈ l, (f a).length ≤ (g a).length) :
    (l.flatMap f).length ≤ (l.flatMap g).length := by
  induction l with
  | nil => simp
  | cons a t ih =>
    simp only [List.flatMap_cons, List.length_append]
    exact Nat.add_le_add (h a (List.mem_cons_self a t))
      (ih fun x hx => h x (List.mem_cons_of_mem a hx))

/-- Claim C5: raising the scale factor (all other parameters fixed) never
decreases the number of bonds: every pair's cutoff grows monotonically
(overrides are unaffected; the clamped radius-sum is monotone because
covalent radii are positive), so every bonded pair stays bonded. -/
theorem calculateBonds_mono (crystal : CrystalStructure) (mn mx : ℝ)
    (po : List (String × ℝ)) (s1 s2 : ℝ) (h : s1 ≤ s2) :
    (calculateBonds crystal s1 mn mx po).length ≤
      (calculateBonds crystal s2 mn mx po).length := by
  simp only [calculateBonds]
  refine length_flatMap_le _ _ _ fun i hi => ?_
  refine length_filterMap_if_le _ _ _ _ _ fun j hj hle => ?_
  exact hle.trans (pairCutoff_mono _ _ _ _ _ _ _ h)

/-- Witness for claim C5 at the concrete scale factors `1 ≤ 2`. -/
theorem calculateBonds_mono_witness :
    (calculateBonds coincidentCrystal 1 0.7 3.2 []).length ≤
      (calculateBonds coincidentCrystal 2 0.7 3.2 []).length :=
  calculateBonds_mono coincidentCrystal 0.7 3.2 [] 1 2 (by norm_num)

/-! ### Ordering of the emitted bond list -/

theorem if_some_eq {α : Type} {c : Prop} [Decidable c] {x b : α}
    (h : (if c then some x else none) = some b) : b = x := by
  split at h
  · exact (Option.some_inj.mp h).symm
  · cases h

/-- Claim C9: every emitted bond has `atom1 < atom2`, and the bond list is
strictly sorted in lexicographic `(atom1, atom2)` order (`atom1` ascending,
then `atom2` ascending), reflecting the `i` ascending, `j` from `i + 1`
loop order. -/
theorem calculateBonds_ordered (crystal : CrystalStructure) (s mn mx : ℝ)
    (po : List (String × ℝ)) :
    (∀ b ∈ calculateBonds crystal s mn mx po, b.atom1 < b.atom2) ∧
      List.Pairwise (fun b1 b2 => b1.atom1 < b2.atom1 ∨
          (b1.atom1 = b2.atom1 ∧ b1.atom2 < b2.atom2))
        (calculateBonds crystal s mn mx po) := by
  constructor
  · intro b hb
    simp only [calculateBonds] at hb
    rw [List.mem_flatMap] at hb
    obtain ⟨i, hi, hbi⟩ := hb
    rw [List.mem_filterMap] at hbi
    obtain ⟨j, hj, hfb⟩ := hbi
    obtain ⟨k, hk, rfl⟩ := List.mem_range'.mp hj
    obtain rfl := if_some_eq hfb
    show i < i + 1 + 1 * k
    omega
  · simp only [calculateBonds, List.flatMap_def]
    rw [List.pairwise_flatten]
    constructor
    · intro l' hl'
      rw [List.mem_map] at hl'
      obtain ⟨i, hi, rfl⟩ := hl'
      rw [List.pairwise_filterMap]
      refine List.Pairwise.imp ?_ (List.pairwise_lt_range' _ _)
      intro j1 j2 hlt b hb b' hb'
      rw [Option.mem_def] at hb hb'
      obtain rfl := if_some_eq hb
      obtain rfl := if_some_eq hb'
      exact Or.inr ⟨rfl, hlt⟩
    · rw [List.pairwise_map]
      refine List.Pairwise.imp ?_ (List.pairwise_lt_range _)
      intro i1 i2 hlt b hb b' hb'
      rw [List.mem_filterMap] at hb hb'
      obtain ⟨j1, hj1, hfb1⟩ := hb
      obtain ⟨j2, hj2, hfb2⟩ := hb'
      obtain rfl := if_some_eq hfb1
      obtain rfl := if_some_eq hfb2
      exact Or.inl hlt

end MaterVis
